import Mathlib

/-!
Verification development for the cronocam upload pipeline:
the deduplication ledger (internal/db/db.go), the retry orchestrator and
resumable-transfer client (uploader package), and the token-bucket rate
limiter. Each Go function the claims touch is embedded as a pure Lean
definition; machine integers are modelled as Nat/Int, SQL NULL as
Option, and fallible calls as Except/Option results.
-/

namespace Cronocam

/-! ### Deduplication ledger (internal/db/db.go)

The `uploaded_files` table has columns `file_path TEXT NOT NULL`,
`file_hash TEXT NOT NULL`, `google_id TEXT` (nullable) and the schema
constraint `UNIQUE(file_hash)`.  A row's `google_id` is `Option String`:
`none` models SQL NULL, `some s` a TEXT value (the empty string is
`some ""`, which is distinct from NULL). -/

structure LedgerRow where
  filePath : String
  fileHash : String
  googleID : Option String
  deriving Repr, DecidableEq

/-- The ledger state: the rows of `uploaded_files`, in insertion order. -/
abbrev Ledger := List LedgerRow

/-- The Go struct `db.UploadedFile` passed to `SaveUploadedFile`; its
`GoogleID` field is a Go `string`, never a null value. -/
structure UploadedFile where
  filePath : String
  fileHash : String
  googleID : String
  deriving Repr, DecidableEq

/-- Errors a ledger write can produce.  SQLite reports a violation of the
`UNIQUE(file_hash)` constraint with a dedicated constraint error code,
distinct from I/O-level failures. -/
inductive DbError where
  | uniqueConstraint
  | storage
  deriving Repr, DecidableEq

/-- `IsFileUploaded`: `SELECT EXISTS(SELECT 1 FROM uploaded_files WHERE
file_hash = ?)`. -/
def IsFileUploaded (st : Ledger) (fileHash : String) : Bool :=
  st.any fun r => r.fileHash = fileHash

/-- `SaveUploadedFile`: `INSERT INTO uploaded_files (file_path, file_hash,
google_id) VALUES (?, ?, ?)`.  The third placeholder is bound from the Go
string `file.GoogleID`, so the stored column value is a TEXT value, never
NULL.  The `UNIQUE(file_hash)` constraint makes the insert fail atomically
(no row added) when a row with the same hash exists.  Returns the
post-state and the error, mirroring the mutated store plus returned
`error`. -/
def SaveUploadedFile (st : Ledger) (f : UploadedFile) :
    Ledger × Option DbError :=
  if st.any fun r => r.fileHash = f.fileHash then
    (st, some DbError.uniqueConstraint)
  else
    (st ++ [⟨f.filePath, f.fileHash, some f.googleID⟩], none)

/-- `GetPendingFiles`: `SELECT file_path FROM uploaded_files WHERE
google_id IS NULL`.  `IS NULL` matches only the SQL NULL value, not the
empty string. -/
def GetPendingFiles (st : Ledger) : List String :=
  (st.filter fun r => r.googleID = none).map fun r => r.filePath

/-- The save step of `runImport` (import command): it calls
`SaveUploadedFile` with `GoogleID: ""` — the empty string, since no
upload happened. -/
def importSave (st : Ledger) (path hash : String) : Ledger × Option DbError :=
  SaveUploadedFile st ⟨path, hash, ""⟩

end Cronocam

namespace Cronocam

/-! ### Retry orchestrator (`createMediaItem`, uploader package)

The loop `for attempt := 0; attempt <= u.config.MaxRetries; attempt++`
performs the finalize call up to `MaxRetries + 1` times.  Each attempt's
interaction with the remote endpoint is abstracted as a
`FinalizeResponse` supplied by an environment function `Nat → FinalizeResponse`
(the response the network would give to the i-th attempt). -/

/-- One result element of the decoded `batchCreate` response body:
`newMediaItemResults[i].status.message` and
`newMediaItemResults[i].mediaItem.id`. -/
structure MediaItemResult where
  statusMessage : String
  mediaItemID : String
  deriving Repr, DecidableEq

/-- What one finalize attempt observes from the network:
`transportError` is a failed `client.Do`, `bodyReadError` a failed
`io.ReadAll`, and `status code body` an HTTP response; for a 200 response
`body` is the decode result (`none` when `json.Decode` fails, otherwise
the `newMediaItemResults` list). -/
inductive FinalizeResponse where
  | transportError
  | bodyReadError
  | status (code : Nat) (body : Option (List MediaItemResult))
  deriving Repr, DecidableEq

/-- The error values `createMediaItem` builds for the failure branches. -/
inductive FinalizeError where
  | transport
  | bodyRead
  | http (code : Nat)
  | decode
  | noItems
  | badItemStatus (msg : String)
  deriving Repr, DecidableEq

/-- How one loop iteration of `createMediaItem` disposes of a response:
return a media item, return a fatal error immediately, or set `lastErr`
and `continue`. -/
inductive AttemptResult where
  | ok (id : String)
  | fatalErr (e : FinalizeError)
  | retriable (e : FinalizeError)
  deriving Repr, DecidableEq

/-- The body of one loop iteration of `createMediaItem`, following the
source order: transport error → continue; body read error → continue;
status 429 → continue; status ≠ 200 and < 500 → return error, ≥ 500 →
continue; decode failure → continue; empty result list → continue;
first item status message ≠ "Success" → continue; otherwise return the
first item. -/
def attemptResult : FinalizeResponse → AttemptResult
  | FinalizeResponse.transportError => AttemptResult.retriable FinalizeError.transport
  | FinalizeResponse.bodyReadError => AttemptResult.retriable FinalizeError.bodyRead
  | FinalizeResponse.status code body =>
    if code = 429 then AttemptResult.retriable (FinalizeError.http 429)
    else if code ≠ 200 then
      if code < 500 then AttemptResult.fatalErr (FinalizeError.http code)
      else AttemptResult.retriable (FinalizeError.http code)
    else
      match body with
      | none => AttemptResult.retriable FinalizeError.decode
      | some [] => AttemptResult.retriable FinalizeError.noItems
      | some (r :: _) =>
        if r.statusMessage = "Success" then AttemptResult.ok r.mediaItemID
        else AttemptResult.retriable (FinalizeError.badItemStatus r.statusMessage)

/-- Outcome of the whole `createMediaItem` call: success with the media
item id, an immediately-returned fatal error (non-429 status below 500),
or the final `all retries failed, last error: …` aggregate carrying the
last error observed. -/
inductive FinalizeResult where
  | ok (id : String)
  | fatal (e : FinalizeError)
  | exhausted (lastErr : Option FinalizeError)
  deriving Repr, DecidableEq

/-- The retry loop of `createMediaItem`.  `remaining` is the number of
loop iterations still allowed (`MaxRetries + 1 - attempt`), `attempt` the
current 0-based attempt index, `lastErr` the running `lastErr` variable.
Returns the result, the number of attempts performed, and the list of
backoff sleeps performed (`time.Duration(attempt) * time.Second * 2`,
i.e. `attempt * 2` seconds, executed only when `attempt > 0`). -/
def finalizeLoop (responses : Nat → FinalizeResponse) :
    Nat → Nat → Option FinalizeError → FinalizeResult × Nat × List Nat
  | 0, _, lastErr => (FinalizeResult.exhausted lastErr, 0, [])
  | remaining + 1, attempt, _ =>
    let sleeps : List Nat := if attempt = 0 then [] else [attempt * 2]
    match attemptResult (responses attempt) with
    | AttemptResult.ok id => (FinalizeResult.ok id, 1, sleeps)
    | AttemptResult.fatalErr e => (FinalizeResult.fatal e, 1, sleeps)
    | AttemptResult.retriable e =>
      let rest := finalizeLoop responses remaining (attempt + 1) (some e)
      (rest.1, rest.2.1 + 1, sleeps ++ rest.2.2)

/-- `createMediaItem` with `MaxRetries = maxRetries`: run the loop from
attempt 0 with `lastErr = nil` and budget `maxRetries + 1` iterations. -/
def createMediaItem (responses : Nat → FinalizeResponse) (maxRetries : Nat) :
    FinalizeResult × Nat × List Nat :=
  finalizeLoop responses (maxRetries + 1) 0 none

/-- The response environment for the C3 scenario: the first `k` attempts
observe HTTP 429, every later attempt a fully successful response. -/
def resp429Then (k : Nat) (i : Nat) : FinalizeResponse :=
  if i < k then FinalizeResponse.status 429 none
  else FinalizeResponse.status 200 (some [⟨"Success", "id1"⟩])

/-! ### Resumable transfer (`uploadChunks`, uploader package)

The transfer loop reads the file into a `ChunkSize` buffer; a read on a
regular file at position `offset` returns `min ChunkSize (S - offset)`
bytes, and `0` at end of file.  Each iteration sends the chunk with the
current offset in `X-Goog-Upload-Offset` and command `upload`, or
`upload, finalize` when `offset + n >= totalSize`; on the finalizing
chunk the loop stores the response body as the upload token and stops.
All chunk responses are taken to be HTTP 200 here (the success path the
claims quantify over). -/

/-- One chunk request: its byte offset, its length, and whether it
carried the `upload, finalize` command. -/
structure Chunk where
  offset : Nat
  size : Nat
  isLast : Bool
  deriving Repr, DecidableEq

/-- The chunk loop of `uploadChunks`, for a file of `S` bytes read in
`C`-byte chunks starting at `offset`.  The Go loop needs no fuel; here
`fuel` bounds the iteration count, and since every iteration either stops
or advances `offset` by at least one byte, a budget of `S + 1` iterations
is never exhausted (each visited offset lies in `[0, S]`). -/
def chunkLoop (C S : Nat) : Nat → Nat → List Chunk
  | 0, _ => []
  | fuel + 1, offset =>
    let n := min C (S - offset)
    if n = 0 then []
    else if S ≤ offset + n then [⟨offset, n, true⟩]
    else ⟨offset, n, false⟩ :: chunkLoop C S fuel (offset + n)

/-- The chunk requests `uploadChunks` makes for a file of `S` bytes with
chunk size `C`: the loop starts at offset 0. -/
def uploadChunks (C S : Nat) : List Chunk := chunkLoop C S (S + 1) 0

/-- Error outcomes of the `UploadFile` pipeline stages modelled here. -/
inductive UploadError where
  | noUploadToken
  | createFailed (r : FinalizeResult)
  deriving Repr, DecidableEq

/-- The upload-token bookkeeping of `uploadChunks`: `uploadToken` starts
as the empty string, is assigned the response body of the chunk sent with
the finalize command, and the function fails with the
`no upload token received` error when the loop ends with an empty
token. -/
def uploadChunksToken (C S : Nat) (finalBody : String) :
    Except UploadError String :=
  let token :=
    if (uploadChunks C S).any (fun ch => ch.isLast) then finalBody else ""
  if token = "" then Except.error UploadError.noUploadToken
  else Except.ok token

/-- Specification predicate for chunk offsets: `offsetsFrom acc cs` holds
when the first chunk of `cs` sits at offset `acc` and every chunk's
offset is the sum of `acc` and the sizes of the chunks before it — i.e.
each chunk is sent with offset equal to the bytes sent so far. -/
def offsetsFrom : Nat → List Chunk → Prop
  | _, [] => True
  | acc, ch :: rest => ch.offset = acc ∧ offsetsFrom (acc + ch.size) rest

/-- `UploadFile` from the point where the session start succeeded, on the
path where every chunk response is HTTP 200 with final body `finalBody`:
run the chunk transfer, then exchange the token via `createMediaItem`.
Also returns how many finalize attempts were performed. -/
def UploadFileModel (C S : Nat) (finalBody : String)
    (responses : Nat → FinalizeResponse) (maxRetries : Nat) :
    Except UploadError String × Nat :=
  match uploadChunksToken C S finalBody with
  | Except.error e => (Except.error e, 0)
  | Except.ok _ =>
    let r := createMediaItem responses maxRetries
    match r.1 with
    | FinalizeResult.ok id => (Except.ok id, r.2.1)
    | other => (Except.error (UploadError.createFailed other), r.2.1)

/-! ### The retry loop under cancellation (`createMediaItem` with a clock)

Per attempt, `createMediaItem` has three blocking points: the backoff
wait (`time.Sleep`), permit acquisition (`u.rateLimiter.Wait(ctx)`, a
select over the token channel and `ctx.Done()`), and the network call
(`client.Do` on a context-carrying request).  `time.Sleep` receives only
a duration — it has no access to the context — so it always sleeps its
full duration.  This timed model makes the clock explicit: a sleep
advances it by the full backoff, and permit acquisition observes the
context.  Permits are taken as always available and network calls as
instantaneous, isolating the timing of the backoff wait. -/

/-- Whether the caller's context is cancelled at time `now`
(`cancelAt = some c` means the cancellation signal fires at time `c`). -/
def ctxCancelled (cancelAt : Option Nat) (now : Nat) : Bool :=
  match cancelAt with
  | none => false
  | some c => c ≤ now

/-- Outcome of the timed loop: the three untimed outcomes, plus the
`rate limiter wait failed: context canceled` return taken when
`rateLimiter.Wait` observes the cancelled context. -/
inductive TimedOutcome where
  | ok (id : String)
  | fatal (e : FinalizeError)
  | exhausted (lastErr : Option FinalizeError)
  | rateLimiterCancelled
  deriving Repr, DecidableEq

/-- The retry loop of `createMediaItem` with an explicit clock.  Before
attempt `a > 0`, `time.Sleep(time.Duration(a) * time.Second * 2)` runs to
completion — advancing the clock by the full `a * 2` seconds whether or
not the cancellation signal fires meanwhile — and only then does
`rateLimiter.Wait(ctx)` observe the context and return `ctx.Err()`,
which the function wraps and returns. -/
def timedFinalizeLoop (responses : Nat → FinalizeResponse)
    (cancelAt : Option Nat) :
    Nat → Nat → Nat → Option FinalizeError → TimedOutcome × Nat
  | 0, _, now, lastErr => (TimedOutcome.exhausted lastErr, now)
  | remaining + 1, attempt, now, _ =>
    let afterSleep := now + (if attempt = 0 then 0 else attempt * 2)
    if ctxCancelled cancelAt afterSleep then
      (TimedOutcome.rateLimiterCancelled, afterSleep)
    else
      match attemptResult (responses attempt) with
      | AttemptResult.ok id => (TimedOutcome.ok id, afterSleep)
      | AttemptResult.fatalErr e => (TimedOutcome.fatal e, afterSleep)
      | AttemptResult.retriable e =>
        timedFinalizeLoop responses cancelAt remaining (attempt + 1)
          afterSleep (some e)

/-- `createMediaItem` under the timed model, started at clock 0. -/
def timedCreateMediaItem (responses : Nat → FinalizeResponse)
    (cancelAt : Option Nat) (maxRetries : Nat) : TimedOutcome × Nat :=
  timedFinalizeLoop responses cancelAt (maxRetries + 1) 0 0 none

/-! ### Rate limiter permit pool (`RateLimiter`, uploader package) -/

/-- The rate limiter's permit pool: its buffered token channel, holding
`pool` queued permits in a channel of capacity `maxBurst`. -/
structure RateLimiterPool where
  pool : Nat
  maxBurst : Nat
  deriving Repr, DecidableEq

/-- `NewRateLimiter` creates the token channel empty: no permit is
queued until the generator goroutine first ticks. -/
def initPool (maxBurst : Nat) : RateLimiterPool := ⟨0, maxBurst⟩

/-- One tick of `generateTokens`: the non-blocking select sends one
token into the channel when the buffer has room and hits the `default`
branch — dropping the token — when the buffer is full. -/
def refillTick (s : RateLimiterPool) : RateLimiterPool :=
  if s.pool < s.maxBurst then { s with pool := s.pool + 1 } else s

/-- `Wait` receiving from the token channel: consumes one queued permit
when one exists; with an empty pool the caller blocks and the pool is
unchanged. -/
def acquirePermit (s : RateLimiterPool) : RateLimiterPool :=
  if 0 < s.pool then { s with pool := s.pool - 1 } else s

/-- The two operations that mutate the permit pool. -/
inductive LimiterOp where
  | refill
  | acquire
  deriving Repr, DecidableEq

/-- Interleaved pool mutations: a tick of the refill goroutine or a
`Wait` by some caller. -/
def limiterStep (s : RateLimiterPool) : LimiterOp → RateLimiterPool
  | LimiterOp.refill => refillTick s
  | LimiterOp.acquire => acquirePermit s

/-! ### Construction (`NewRateLimiter` and `New`, uploader package) -/

/-- The Go runtime panic modelled for construction: `time.Second /
time.Duration(tokensPerSec)` is int64 division, which panics when the
divisor is zero. -/
inductive GoPanic where
  | integerDivideByZero
  deriving Repr, DecidableEq

/-- `time.Second` as an int64 nanosecond count. -/
def timeSecond : Int := 1000000000

/-- The fields `NewRateLimiter` fills in (the token channel aside). -/
structure RateLimiterHandle where
  tokensPerSec : Int
  maxBurst : Int
  tokenInterval : Int
  deriving Repr, DecidableEq

/-- `NewRateLimiter`: computes `tokenInterval = time.Second /
time.Duration(tokensPerSec)`.  Division by zero is a runtime panic;
otherwise construction completes (Go's int64 division truncates toward
zero, as does `Int.tdiv`). -/
def NewRateLimiter (tokensPerSec maxBurst : Int) :
    Except GoPanic RateLimiterHandle :=
  if tokensPerSec = 0 then Except.error GoPanic.integerDivideByZero
  else Except.ok ⟨tokensPerSec, maxBurst, Int.tdiv timeSecond tokensPerSec⟩

/-- The uploader `Config` struct. -/
structure UploaderConfig where
  chunkSize : Int
  maxRetries : Int
  requestsPerSecond : Int
  maxBurst : Int
  deriving Repr, DecidableEq

/-- The constructed uploader, as far as construction can fail. -/
structure Uploader where
  config : UploaderConfig
  rateLimiter : RateLimiterHandle
  deriving Repr, DecidableEq

/-- `New`: builds the uploader, calling
`NewRateLimiter(config.RequestsPerSecond, config.MaxBurst)`. -/
def New (config : UploaderConfig) : Except GoPanic Uploader :=
  match NewRateLimiter config.requestsPerSecond config.maxBurst with
  | Except.error p => Except.error p
  | Except.ok rl => Except.ok ⟨config, rl⟩

end Cronocam

namespace Cronocam

/-- Claim C1: claimed, `GetPendingFiles` returns exactly the file paths of
records whose remote id is empty or absent, so every record created by the
import-only path (which stores an empty remote identifier) is included.
Evaluated at the failing input: importing a single file stores the row
with `google_id` equal to the TEXT value `''` (not NULL), and
`GetPendingFiles` — which filters on `google_id IS NULL` — returns the
empty list rather than the imported path. -/
theorem getPendingFiles_misses_import_only_record :
    importSave [] "/photos/a.jpg" "h1" =
      ([⟨"/photos/a.jpg", "h1", some ""⟩], none) ∧
    GetPendingFiles [⟨"/photos/a.jpg", "h1", some ""⟩] = [] ∧
    GetPendingFiles [⟨"/photos/a.jpg", "h1", some ""⟩] ≠ ["/photos/a.jpg"] := by
  refine ⟨rfl, rfl, ?_⟩
  decide

/-- Claim C2: inserting a record whose fingerprint is already present in
the ledger fails with the distinguished uniqueness-violation error (not
the storage/I-O error), and leaves the ledger unchanged, so no second
record with that fingerprint is added. -/
theorem saveUploadedFile_duplicate (st : Ledger) (f : UploadedFile)
    (h : IsFileUploaded st f.fileHash = true) :
    (SaveUploadedFile st f).1 = st ∧
    (SaveUploadedFile st f).2 = some DbError.uniqueConstraint ∧
    DbError.uniqueConstraint ≠ DbError.storage ∧
    ((SaveUploadedFile st f).1.filter fun r => r.fileHash = f.fileHash) =
      (st.filter fun r => r.fileHash = f.fileHash) := by
  unfold SaveUploadedFile
  unfold IsFileUploaded at h
  simp only [h, if_true]
  exact ⟨trivial, trivial, by decide, trivial⟩

/-- Witness for C2 at a concrete ledger holding fingerprint `h1`. -/
theorem saveUploadedFile_duplicate_witness :
    IsFileUploaded [⟨"/p/a.jpg", "h1", some "g1"⟩] "h1" = true ∧
    (SaveUploadedFile [⟨"/p/a.jpg", "h1", some "g1"⟩]
        ⟨"/p/b.jpg", "h1", "g2"⟩).1 = [⟨"/p/a.jpg", "h1", some "g1"⟩] := by
  refine ⟨by decide, ?_⟩
  exact (saveUploadedFile_duplicate [⟨"/p/a.jpg", "h1", some "g1"⟩]
    ⟨"/p/b.jpg", "h1", "g2"⟩ (by decide)).1

/-- In the C3 environment, an attempt with index below `k` observes a 429
and the loop body classifies it as retriable. -/
lemma attemptResult_resp429Then_lt {k i : Nat} (h : i < k) :
    attemptResult (resp429Then k i) =
      AttemptResult.retriable (FinalizeError.http 429) := by
  simp [resp429Then, h, attemptResult]

/-- In the C3 environment, an attempt with index at least `k` observes the
fully successful response and the loop body returns the media item. -/
lemma attemptResult_resp429Then_ge {k i : Nat} (h : k ≤ i) :
    attemptResult (resp429Then k i) = AttemptResult.ok "id1" := by
  simp [resp429Then, Nat.not_lt.mpr h, attemptResult]

/-- One-step unfolding of the loop when the current attempt succeeds. -/
lemma finalizeLoop_step_ok (responses : Nat → FinalizeResponse) (r a : Nat)
    (l : Option FinalizeError) (id : String)
    (h : attemptResult (responses a) = AttemptResult.ok id) :
    finalizeLoop responses (r + 1) a l =
      (FinalizeResult.ok id, 1, if a = 0 then [] else [a * 2]) := by
  simp only [finalizeLoop, h]

/-- One-step unfolding of the loop when the current attempt hits a fatal
status. -/
lemma finalizeLoop_step_fatal (responses : Nat → FinalizeResponse) (r a : Nat)
    (l : Option FinalizeError) (e : FinalizeError)
    (h : attemptResult (responses a) = AttemptResult.fatalErr e) :
    finalizeLoop responses (r + 1) a l =
      (FinalizeResult.fatal e, 1, if a = 0 then [] else [a * 2]) := by
  simp only [finalizeLoop, h]

/-- One-step unfolding of the loop when the current attempt is retriable. -/
lemma finalizeLoop_step_retriable (responses : Nat → FinalizeResponse)
    (r a : Nat) (l : Option FinalizeError) (e : FinalizeError)
    (h : attemptResult (responses a) = AttemptResult.retriable e) :
    finalizeLoop responses (r + 1) a l =
      ((finalizeLoop responses r (a + 1) (some e)).1,
       (finalizeLoop responses r (a + 1) (some e)).2.1 + 1,
       (if a = 0 then [] else [a * 2]) ++
         (finalizeLoop responses r (a + 1) (some e)).2.2) := by
  simp only [finalizeLoop, h]

/-- If every remaining attempt observes a 429 (all attempt indices stay
below `k`), the loop exhausts its whole budget and reports the last 429
as the last error. -/
lemma finalizeLoop_all429 (k : Nat) :
    ∀ r a (l : Option FinalizeError), 1 ≤ r → a + r ≤ k →
      (finalizeLoop (resp429Then k) r a l).1 =
        FinalizeResult.exhausted (some (FinalizeError.http 429)) ∧
      (finalizeLoop (resp429Then k) r a l).2.1 = r := by
  intro r
  induction r with
  | zero => intro a l h1 _; omega
  | succ n ih =>
    intro a l _ h2
    have ha : a < k := by omega
    have hr := attemptResult_resp429Then_lt ha
    rw [finalizeLoop_step_retriable _ _ _ _ _ hr]
    cases n with
    | zero => exact ⟨rfl, rfl⟩
    | succ m =>
      have ihm := ih (a + 1) (some (FinalizeError.http 429)) (by omega) (by omega)
      exact ⟨ihm.1, by rw [ihm.2]⟩

/-- If attempts `a, …, k-1` observe 429s and attempt `k` succeeds within
the remaining budget, the loop returns the media item after
`k - a + 1` attempts. -/
lemma finalizeLoop_429_success (k : Nat) :
    ∀ r a (l : Option FinalizeError), a ≤ k → k < a + r →
      (finalizeLoop (resp429Then k) r a l).1 = FinalizeResult.ok "id1" ∧
      (finalizeLoop (resp429Then k) r a l).2.1 = k - a + 1 := by
  intro r
  induction r with
  | zero => intro a l h1 h2; omega
  | succ n ih =>
    intro a l h1 h2
    by_cases hak : a = k
    · subst hak
      have hr := attemptResult_resp429Then_ge (Nat.le_refl a)
      rw [finalizeLoop_step_ok _ _ _ _ _ hr]
      refine ⟨rfl, ?_⟩
      dsimp only
      omega
    · have ha : a < k := Nat.lt_of_le_of_ne h1 hak
      have hr := attemptResult_resp429Then_lt ha
      have ihm := ih (a + 1) (some (FinalizeError.http 429)) (by omega) (by omega)
      rw [finalizeLoop_step_retriable _ _ _ _ _ hr]
      refine ⟨ihm.1, ?_⟩
      have hcount := ihm.2
      dsimp only
      omega

/-- Claim C3: with a finalize call that returns 429 exactly `k` times and
then succeeds, `createMediaItem` returns success after exactly `k + 1`
attempts when `k ≤ MaxRetries`, and returns the aggregated
all-retries-failed error carrying the last 429 after exactly
`MaxRetries + 1` attempts when `k > MaxRetries` (a budget of 0 means
try-once). -/
theorem createMediaItem_retry_counts (k maxRetries : Nat) :
    (k ≤ maxRetries →
      (createMediaItem (resp429Then k) maxRetries).1 = FinalizeResult.ok "id1" ∧
      (createMediaItem (resp429Then k) maxRetries).2.1 = k + 1) ∧
    (maxRetries < k →
      (createMediaItem (resp429Then k) maxRetries).1 =
        FinalizeResult.exhausted (some (FinalizeError.http 429)) ∧
      (createMediaItem (resp429Then k) maxRetries).2.1 = maxRetries + 1) := by
  constructor
  · intro h
    have hs := finalizeLoop_429_success k (maxRetries + 1) 0 none (Nat.zero_le k)
      (by omega)
    unfold createMediaItem
    exact ⟨hs.1, by omega⟩
  · intro h
    have hs := finalizeLoop_all429 k (maxRetries + 1) 0 none (by omega) (by omega)
    unfold createMediaItem
    exact hs

/-- Witness for C3: `k = 1 ≤ MaxRetries = 2` gives success in 2 attempts;
`k = 3 > MaxRetries = 1` gives the aggregated failure after 2 attempts. -/
theorem createMediaItem_retry_counts_witness :
    (1 ≤ 2 ∧
      (createMediaItem (resp429Then 1) 2).1 = FinalizeResult.ok "id1" ∧
      (createMediaItem (resp429Then 1) 2).2.1 = 1 + 1) ∧
    (1 < 3 ∧
      (createMediaItem (resp429Then 3) 1).1 =
        FinalizeResult.exhausted (some (FinalizeError.http 429)) ∧
      (createMediaItem (resp429Then 3) 1).2.1 = 1 + 1) :=
  ⟨⟨by decide, (createMediaItem_retry_counts 1 2).1 (by decide)⟩,
   ⟨by decide, (createMediaItem_retry_counts 3 1).2 (by decide)⟩⟩

/-- Claim C4: the loop body classifies a 429 as retryable; any other
status that is not 200 and is below 500 is fatal — `createMediaItem`
returns it immediately after a single attempt; any 5xx status, transport
failure, body-read failure, undecodable body, zero-item result, or
non-success per-item status is retryable. -/
theorem finalize_error_classification :
    (∀ body, attemptResult (FinalizeResponse.status 429 body) =
        AttemptResult.retriable (FinalizeError.http 429)) ∧
    (∀ code body, 400 ≤ code → code < 500 → code ≠ 429 →
        attemptResult (FinalizeResponse.status code body) =
          AttemptResult.fatalErr (FinalizeError.http code)) ∧
    (∀ (responses : Nat → FinalizeResponse) (maxRetries code : Nat) body,
        400 ≤ code → code < 500 → code ≠ 429 →
        responses 0 = FinalizeResponse.status code body →
        (createMediaItem responses maxRetries).1 =
          FinalizeResult.fatal (FinalizeError.http code) ∧
        (createMediaItem responses maxRetries).2.1 = 1) ∧
    (∀ code body, 500 ≤ code →
        attemptResult (FinalizeResponse.status code body) =
          AttemptResult.retriable (FinalizeError.http code)) ∧
    attemptResult FinalizeResponse.transportError =
        AttemptResult.retriable FinalizeError.transport ∧
    attemptResult FinalizeResponse.bodyReadError =
        AttemptResult.retriable FinalizeError.bodyRead ∧
    attemptResult (FinalizeResponse.status 200 none) =
        AttemptResult.retriable FinalizeError.decode ∧
    attemptResult (FinalizeResponse.status 200 (some [])) =
        AttemptResult.retriable FinalizeError.noItems ∧
    (∀ msg id rest, msg ≠ "Success" →
        attemptResult (FinalizeResponse.status 200 (some (⟨msg, id⟩ :: rest))) =
          AttemptResult.retriable (FinalizeError.badItemStatus msg)) := by
  refine ⟨?_, ?_, ?_, ?_, rfl, rfl, rfl, rfl, ?_⟩
  · intro body; rfl
  · intro code body h1 h2 h3
    have h4 : code ≠ 200 := by omega
    simp [attemptResult, h3, h4, h2]
  · intro responses maxRetries code body h1 h2 h3 hresp
    have h4 : code ≠ 200 := by omega
    have hfatal : attemptResult (responses 0) =
        AttemptResult.fatalErr (FinalizeError.http code) := by
      rw [hresp]; simp [attemptResult, h3, h4, h2]
    unfold createMediaItem
    rw [finalizeLoop_step_fatal _ _ _ _ _ hfatal]
    exact ⟨rfl, rfl⟩
  · intro code body h1
    have h3 : code ≠ 429 := by omega
    have h4 : code ≠ 200 := by omega
    simp [attemptResult, h3, h4, Nat.not_lt.mpr h1]
  · intro msg id rest h
    simp [attemptResult, h]

/-- Witness for C4 at concrete inputs: 404 on the first attempt is fatal
after one attempt; 503 is classified retryable; a wrong per-item status
is retryable. -/
theorem finalize_error_classification_witness :
    ((400 ≤ 404 ∧ 404 < 500 ∧ 404 ≠ 429) ∧
      (createMediaItem (fun _ => FinalizeResponse.status 404 none) 3).1 =
        FinalizeResult.fatal (FinalizeError.http 404) ∧
      (createMediaItem (fun _ => FinalizeResponse.status 404 none) 3).2.1 = 1) ∧
    attemptResult (FinalizeResponse.status 503 none) =
      AttemptResult.retriable (FinalizeError.http 503) ∧
    attemptResult
        (FinalizeResponse.status 200 (some [⟨"Internal error", "x"⟩])) =
      AttemptResult.retriable (FinalizeError.badItemStatus "Internal error") := by
  refine ⟨⟨⟨by decide, by decide, by decide⟩, ?_⟩, ?_, ?_⟩
  · exact finalize_error_classification.2.2.1
      (fun _ => FinalizeResponse.status 404 none) 3 404 none
      (by decide) (by decide) (by decide) rfl
  · exact finalize_error_classification.2.2.2.1 503 none (by decide)
  · exact finalize_error_classification.2.2.2.2.2.2.2.2 "Internal error" "x" []
      (by decide)

/-- From any starting attempt index `a ≥ 1`, the sleeps performed by the
loop are exactly `a * 2, (a+1) * 2, …` — one per attempt performed. -/
lemma finalizeLoop_waits (responses : Nat → FinalizeResponse) :
    ∀ r a (l : Option FinalizeError), 1 ≤ a →
      (finalizeLoop responses r a l).2.2 =
        (List.range' a (finalizeLoop responses r a l).2.1).map (fun i => i * 2) := by
  intro r
  induction r with
  | zero => intro a l _; simp [finalizeLoop]
  | succ n ih =>
    intro a l ha
    have ha0 : a ≠ 0 := by omega
    cases hstep : attemptResult (responses a) with
    | ok id =>
      rw [finalizeLoop_step_ok _ _ _ _ _ hstep]
      simp [ha0, List.range'_succ]
    | fatalErr e =>
      rw [finalizeLoop_step_fatal _ _ _ _ _ hstep]
      simp [ha0, List.range'_succ]
    | retriable e =>
      have ihm := ih (a + 1) (some e) (by omega)
      rw [finalizeLoop_step_retriable _ _ _ _ _ hstep]
      simp only [ha0, if_false]
      rw [List.range'_succ]
      simp [ihm]

/-- Claim C5: in `createMediaItem`, no wait precedes the first attempt and
the wait before each later attempt is its 0-based attempt number times 2
seconds: a run of `n` attempts performs exactly the sleeps
`1*2, 2*2, …, (n-1)*2` in order. -/
theorem createMediaItem_backoff (responses : Nat → FinalizeResponse)
    (maxRetries : Nat) :
    (createMediaItem responses maxRetries).2.2 =
      (List.range' 1 ((createMediaItem responses maxRetries).2.1 - 1)).map
        (fun i => i * 2) ∧
    (createMediaItem responses maxRetries).2.2.length =
      (createMediaItem responses maxRetries).2.1 - 1 := by
  have main : (createMediaItem responses maxRetries).2.2 =
      (List.range' 1 ((createMediaItem responses maxRetries).2.1 - 1)).map
        (fun i => i * 2) := by
    unfold createMediaItem
    cases hstep : attemptResult (responses 0) with
    | ok id => rw [finalizeLoop_step_ok _ _ _ _ _ hstep]; simp
    | fatalErr e => rw [finalizeLoop_step_fatal _ _ _ _ _ hstep]; simp
    | retriable e =>
      have hw := finalizeLoop_waits responses maxRetries 1 (some e) (Nat.le_refl 1)
      rw [finalizeLoop_step_retriable _ _ _ _ _ hstep]
      simp [hw]
  refine ⟨main, ?_⟩
  rw [main]
  simp

/-- One-step unfolding of the chunk loop. -/
lemma chunkLoop_succ (C S fuel offset : Nat) :
    chunkLoop C S (fuel + 1) offset =
      if min C (S - offset) = 0 then []
      else if S ≤ offset + min C (S - offset) then
        [⟨offset, min C (S - offset), true⟩]
      else Chunk.mk offset (min C (S - offset)) false ::
        chunkLoop C S fuel (offset + min C (S - offset)) := rfl

/-- The chunk sizes sum to the bytes remaining past `offset`. -/
lemma chunkLoop_sum (C S : Nat) (hC : 0 < C) :
    ∀ fuel offset, offset < S → S - offset ≤ fuel →
      ((chunkLoop C S fuel offset).map (fun ch => ch.size)).sum = S - offset := by
  intro fuel
  induction fuel with
  | zero => intro offset h1 h2; omega
  | succ f ih =>
    intro offset h1 h2
    rw [chunkLoop_succ, if_neg (by omega)]
    by_cases hlast : S ≤ offset + min C (S - offset)
    · rw [if_pos hlast]
      simp only [List.map_cons, List.map_nil, List.sum_cons, List.sum_nil]
      omega
    · rw [if_neg hlast]
      simp only [List.map_cons, List.sum_cons]
      rw [ih (offset + min C (S - offset)) (by omega) (by omega)]
      omega

/-- The loop emits at least one chunk, its last chunk is the only one
sent with the finalize command. -/
lemma chunkLoop_finalize (C S : Nat) (hC : 0 < C) :
    ∀ fuel offset, offset < S → S - offset ≤ fuel →
      ∃ init lastCh, chunkLoop C S fuel offset = init ++ [lastCh] ∧
        lastCh.isLast = true ∧ ∀ ch ∈ init, ch.isLast = false := by
  intro fuel
  induction fuel with
  | zero => intro offset h1 h2; omega
  | succ f ih =>
    intro offset h1 h2
    rw [chunkLoop_succ, if_neg (by omega)]
    by_cases hlast : S ≤ offset + min C (S - offset)
    · rw [if_pos hlast]
      exact ⟨[], ⟨offset, min C (S - offset), true⟩, rfl, rfl, by simp⟩
    · rw [if_neg hlast]
      obtain ⟨init, lastCh, heq, hflag, hinit⟩ :=
        ih (offset + min C (S - offset)) (by omega) (by omega)
      refine ⟨Chunk.mk offset (min C (S - offset)) false :: init, lastCh,
        by rw [heq, List.cons_append], hflag, ?_⟩
      intro ch hch
      rcases List.mem_cons.mp hch with h | h
      · rw [h]
      · exact hinit ch h

/-- Each emitted chunk carries the finalize command exactly when
`bytesSent + chunkLength` reaches `totalSize`. -/
lemma chunkLoop_isLast_eq (C S : Nat) :
    ∀ fuel offset, ∀ ch ∈ chunkLoop C S fuel offset,
      ch.isLast = decide (S ≤ ch.offset + ch.size) := by
  intro fuel
  induction fuel with
  | zero => intro offset ch hch; simp [chunkLoop] at hch
  | succ f ih =>
    intro offset ch hch
    rw [chunkLoop_succ] at hch
    by_cases h0 : min C (S - offset) = 0
    · rw [if_pos h0] at hch; simp at hch
    · rw [if_neg h0] at hch
      by_cases hlast : S ≤ offset + min C (S - offset)
      · rw [if_pos hlast] at hch
        rcases List.mem_singleton.mp hch with h
        rw [h]
        simp [hlast]
      · rw [if_neg hlast] at hch
        rcases List.mem_cons.mp hch with h | h
        · rw [h]
          simp [hlast]
        · exact ih (offset + min C (S - offset)) ch h

/-- Every chunk is sent with offset equal to the bytes sent before it. -/
lemma chunkLoop_offsetsFrom (C S : Nat) :
    ∀ fuel offset, offsetsFrom offset (chunkLoop C S fuel offset) := by
  intro fuel
  induction fuel with
  | zero => intro offset; simp [chunkLoop, offsetsFrom]
  | succ f ih =>
    intro offset
    rw [chunkLoop_succ]
    by_cases h0 : min C (S - offset) = 0
    · rw [if_pos h0]; simp [offsetsFrom]
    · rw [if_neg h0]
      by_cases hlast : S ≤ offset + min C (S - offset)
      · rw [if_pos hlast]
        exact ⟨rfl, trivial⟩
      · rw [if_neg hlast]
        exact ⟨rfl, ih (offset + min C (S - offset))⟩

/-- Claim C6: for a file of `S > 0` bytes and chunk size `C > 0`,
`uploadChunks` sends chunks whose lengths sum to exactly `S`; it emits at
least one chunk and marks exactly one — the last — with the finalize
command; finality of each chunk is determined by comparing
`bytesSent + chunkLength` against `totalSize`; and every chunk is sent
with offset equal to the number of bytes sent before it. -/
theorem uploadChunks_spec (C S : Nat) (hC : 0 < C) (hS : 0 < S) :
    ((uploadChunks C S).map (fun ch => ch.size)).sum = S ∧
    (∃ init lastCh, uploadChunks C S = init ++ [lastCh] ∧
      lastCh.isLast = true ∧ ∀ ch ∈ init, ch.isLast = false) ∧
    (∀ ch ∈ uploadChunks C S, ch.isLast = decide (S ≤ ch.offset + ch.size)) ∧
    offsetsFrom 0 (uploadChunks C S) := by
  have hsum := chunkLoop_sum C S hC (S + 1) 0 hS (by omega)
  have hfin := chunkLoop_finalize C S hC (S + 1) 0 hS (by omega)
  refine ⟨?_, hfin, chunkLoop_isLast_eq C S (S + 1) 0,
    chunkLoop_offsetsFrom C S (S + 1) 0⟩
  unfold uploadChunks
  rw [hsum]
  omega

/-- Witness for C6 at the spec's example: a 12 MB file with 5 MB chunks
produces exactly three chunk calls of 5 MB, 5 MB and 2 MB, with only the
third carrying the finalize command. -/
theorem uploadChunks_spec_witness :
    0 < 5242880 ∧ 0 < 12582912 ∧
    uploadChunks 5242880 12582912 =
      [⟨0, 5242880, false⟩, ⟨5242880, 5242880, false⟩,
       ⟨10485760, 2097152, true⟩] ∧
    (((uploadChunks 5242880 12582912).map (fun ch => ch.size)).sum =
        12582912 ∧
      (∃ init lastCh, uploadChunks 5242880 12582912 = init ++ [lastCh] ∧
        lastCh.isLast = true ∧ ∀ ch ∈ init, ch.isLast = false) ∧
      (∀ ch ∈ uploadChunks 5242880 12582912,
        ch.isLast = decide (12582912 ≤ ch.offset + ch.size)) ∧
      offsetsFrom 0 (uploadChunks 5242880 12582912)) :=
  ⟨by decide, by decide, by decide,
   uploadChunks_spec 5242880 12582912 (by decide) (by decide)⟩

/-- A zero-byte file produces no chunks: the first read returns zero
bytes and the loop exits at once. -/
lemma uploadChunks_zero (C : Nat) : uploadChunks C 0 = [] := by
  unfold uploadChunks
  rw [chunkLoop_succ]
  simp

/-- Claim C9: for every zero-byte file the chunk loop sends no chunk at
all, no upload token is produced, and `UploadFile` fails with the
`no upload token received` error with zero finalize attempts — for every
chunk size, final-chunk body, response environment and retry budget, even
though the session start succeeded (the model starts past it). -/
theorem uploadFile_empty_file (C : Nat) (finalBody : String)
    (responses : Nat → FinalizeResponse) (maxRetries : Nat) :
    uploadChunks C 0 = [] ∧
    uploadChunksToken C 0 finalBody =
      Except.error UploadError.noUploadToken ∧
    UploadFileModel C 0 finalBody responses maxRetries =
      (Except.error UploadError.noUploadToken, 0) := by
  have h0 := uploadChunks_zero C
  have htok : uploadChunksToken C 0 finalBody =
      Except.error UploadError.noUploadToken := by
    unfold uploadChunksToken
    rw [h0]
    simp
  refine ⟨h0, htok, ?_⟩
  unfold UploadFileModel
  rw [htok]

/-- Claim C7: claimed, the cancellation signal is honored at every
blocking point of the finalize path, so a cancellation firing during a
backoff wait aborts the remaining wait.  Evaluated at the failing input:
the first attempt observes a 429 at time 0, the context is cancelled at
time 1 — in the middle of the 2-second backoff preceding the second
attempt — yet the run ends at time 2: `time.Sleep` receives no context,
so the full wait elapses and the cancellation is only observed afterwards
by `rateLimiter.Wait`, whose wrapped `ctx.Err()` is the value returned. -/
theorem cancellation_during_backoff_not_aborted :
    timedCreateMediaItem (fun _ => FinalizeResponse.status 429 none)
        (some 1) 1 = (TimedOutcome.rateLimiterCancelled, 2) ∧
    (1 : Nat) < 2 := by
  exact ⟨rfl, by decide⟩

/-- One pool mutation keeps the permit count within the channel capacity
and never changes the capacity. -/
lemma limiterStep_bounded (s : RateLimiterPool) (op : LimiterOp)
    (h : s.pool ≤ s.maxBurst) :
    (limiterStep s op).pool ≤ s.maxBurst ∧
    (limiterStep s op).maxBurst = s.maxBurst := by
  cases op
  · show (refillTick s).pool ≤ s.maxBurst ∧ (refillTick s).maxBurst = s.maxBurst
    unfold refillTick
    by_cases hb : s.pool < s.maxBurst
    · rw [if_pos hb]; exact ⟨hb, rfl⟩
    · rw [if_neg hb]; exact ⟨h, rfl⟩
  · show (acquirePermit s).pool ≤ s.maxBurst ∧
      (acquirePermit s).maxBurst = s.maxBurst
    unfold acquirePermit
    by_cases hp : 0 < s.pool
    · rw [if_pos hp]
      exact ⟨show s.pool - 1 ≤ s.maxBurst by omega, rfl⟩
    · rw [if_neg hp]; exact ⟨h, rfl⟩

/-- Any interleaving of refill ticks and acquisitions preserves the
bound, starting from any in-bound pool. -/
lemma limiterFold_bounded (ops : List LimiterOp) :
    ∀ s : RateLimiterPool, s.pool ≤ s.maxBurst →
      (ops.foldl limiterStep s).pool ≤ (ops.foldl limiterStep s).maxBurst ∧
      (ops.foldl limiterStep s).maxBurst = s.maxBurst := by
  induction ops with
  | nil => intro s h; exact ⟨h, rfl⟩
  | cons op rest ih =>
    intro s h
    rw [List.foldl_cons]
    have hstep := limiterStep_bounded s op h
    have hin : (limiterStep s op).pool ≤ (limiterStep s op).maxBurst := by
      rw [hstep.2]; exact hstep.1
    have hrec := ih (limiterStep s op) hin
    exact ⟨hrec.1, by rw [hrec.2, hstep.2]⟩

/-- Claim C8: the permit pool never holds more than `maxBurst` permits:
a refill tick at capacity drops the excess permit rather than queueing
it, a single step preserves the bound, and any sequence of refill ticks
and `Wait` acquisitions starting from the freshly constructed (empty)
pool stays within `maxBurst`. -/
theorem rateLimiter_pool_bounded :
    (∀ s : RateLimiterPool, s.pool = s.maxBurst →
      (refillTick s).pool = s.pool) ∧
    (∀ (s : RateLimiterPool) (op : LimiterOp), s.pool ≤ s.maxBurst →
      (limiterStep s op).pool ≤ (limiterStep s op).maxBurst) ∧
    (∀ (maxBurst : Nat) (ops : List LimiterOp),
      (ops.foldl limiterStep (initPool maxBurst)).pool ≤ maxBurst) := by
  refine ⟨?_, ?_, ?_⟩
  · intro s h
    unfold refillTick
    rw [if_neg (by omega)]
  · intro s op h
    have hstep := limiterStep_bounded s op h
    rw [hstep.2]
    exact hstep.1
  · intro maxBurst ops
    have h := limiterFold_bounded ops (initPool maxBurst) (Nat.zero_le _)
    have h2 : (ops.foldl limiterStep (initPool maxBurst)).maxBurst = maxBurst :=
      h.2
    exact le_of_le_of_eq h.1 h2

/-- Witness for C8: a full pool drops a refill; a step from an in-bound
pool stays in bound; a concrete op sequence from the empty pool stays
within capacity 2. -/
theorem rateLimiter_pool_bounded_witness :
    ((⟨3, 3⟩ : RateLimiterPool).pool = (⟨3, 3⟩ : RateLimiterPool).maxBurst ∧
      (refillTick ⟨3, 3⟩).pool = (⟨3, 3⟩ : RateLimiterPool).pool) ∧
    ((⟨1, 3⟩ : RateLimiterPool).pool ≤ (⟨1, 3⟩ : RateLimiterPool).maxBurst ∧
      (limiterStep ⟨1, 3⟩ LimiterOp.refill).pool ≤
        (limiterStep ⟨1, 3⟩ LimiterOp.refill).maxBurst) ∧
    ([LimiterOp.refill, LimiterOp.refill, LimiterOp.refill,
        LimiterOp.acquire, LimiterOp.refill].foldl limiterStep
      (initPool 2)).pool ≤ 2 :=
  ⟨⟨rfl, rateLimiter_pool_bounded.1 ⟨3, 3⟩ rfl⟩,
   ⟨by decide, rateLimiter_pool_bounded.2.1 ⟨1, 3⟩ LimiterOp.refill (by decide)⟩,
   rateLimiter_pool_bounded.2.2 2
     [LimiterOp.refill, LimiterOp.refill, LimiterOp.refill,
      LimiterOp.acquire, LimiterOp.refill]⟩

/-- Claim C10: constructing the rate limiter with `tokensPerSec = 0`
hits the division by zero in `time.Second / time.Duration(tokensPerSec)`
— a runtime panic — and so does `New` on a config with
`RequestsPerSecond = 0`; under the precondition `tokensPerSec ≥ 1` both
constructions are total. -/
theorem newRateLimiter_requires_positive_rate :
    (∀ maxBurst : Int, NewRateLimiter 0 maxBurst =
      Except.error GoPanic.integerDivideByZero) ∧
    (∀ config : UploaderConfig, config.requestsPerSecond = 0 →
      New config = Except.error GoPanic.integerDivideByZero) ∧
    (∀ tokensPerSec maxBurst : Int, 1 ≤ tokensPerSec →
      NewRateLimiter tokensPerSec maxBurst =
        Except.ok ⟨tokensPerSec, maxBurst, Int.tdiv timeSecond tokensPerSec⟩) ∧
    (∀ config : UploaderConfig, 1 ≤ config.requestsPerSecond →
      ∃ u, New config = Except.ok u) := by
  refine ⟨?_, ?_, ?_, ?_⟩
  · intro maxBurst
    unfold NewRateLimiter
    rw [if_pos rfl]
  · intro config h
    unfold New NewRateLimiter
    rw [h, if_pos rfl]
  · intro tokensPerSec maxBurst h
    unfold NewRateLimiter
    rw [if_neg (by omega)]
  · intro config h
    unfold New NewRateLimiter
    rw [if_neg (by omega)]
    exact ⟨_, rfl⟩

/-- Witness for C10: `RequestsPerSecond = 0` panics; `RequestsPerSecond
= 10` constructs (with the 100 ms refill interval). -/
theorem newRateLimiter_requires_positive_rate_witness :
    NewRateLimiter 0 5 = Except.error GoPanic.integerDivideByZero ∧
    ((0 : Int) = 0 ∧
      New ⟨5242880, 3, 0, 5⟩ = Except.error GoPanic.integerDivideByZero) ∧
    ((1 : Int) ≤ 10 ∧
      NewRateLimiter 10 5 = Except.ok ⟨10, 5, 100000000⟩) ∧
    ((1 : Int) ≤ 10 ∧ ∃ u, New ⟨5242880, 3, 10, 5⟩ = Except.ok u) := by
  refine ⟨newRateLimiter_requires_positive_rate.1 5,
    ⟨rfl, newRateLimiter_requires_positive_rate.2.1 ⟨5242880, 3, 0, 5⟩ rfl⟩,
    ⟨by decide, ?_⟩,
    ⟨by decide, newRateLimiter_requires_positive_rate.2.2.2
      ⟨5242880, 3, 10, 5⟩ (by decide)⟩⟩
  have h := newRateLimiter_requires_positive_rate.2.2.1 10 5 (by decide)
  rw [h]
  rfl

end Cronocam
